import Mathlib

/-!
Shallow embedding of the interactive control loop of the ThreeJS scene
viewer (src/main.js): key state, camera navigation, light navigation and
the per-frame proxy synchronization, with machine reals modelled by ℝ.

Vector operations mirror the three.js Vector3 methods the code calls:
in particular normalize divides by the length or by 1 when the length is
zero (the JS expression length() or-else 1), so the zero vector
normalizes to itself.
-/

noncomputable section

namespace VRProj

/-- Three-component vector, the embedding of THREE.Vector3. -/
@[ext]
structure Vec3 where
  x : ℝ
  y : ℝ
  z : ℝ

namespace Vec3

/-- Componentwise sum, Vector3.add. -/
def add (a b : Vec3) : Vec3 := ⟨a.x + b.x, a.y + b.y, a.z + b.z⟩

/-- Componentwise difference, Vector3.sub. -/
def sub (a b : Vec3) : Vec3 := ⟨a.x - b.x, a.y - b.y, a.z - b.z⟩

/-- Scaling, Vector3.multiplyScalar. -/
def multiplyScalar (a : Vec3) (c : ℝ) : Vec3 := ⟨a.x * c, a.y * c, a.z * c⟩

/-- Squared length, Vector3.lengthSq. -/
def lengthSq (a : Vec3) : ℝ := a.x * a.x + a.y * a.y + a.z * a.z

/-- Length, Vector3.length. -/
def length (a : Vec3) : ℝ := Real.sqrt a.lengthSq

/-- Vector3.normalize: divideScalar by (length or-else 1), so the zero
vector is mapped to itself rather than producing a division by zero. -/
def normalize (a : Vec3) : Vec3 :=
  a.multiplyScalar (1 / (if a.length = 0 then 1 else a.length))

/-- Cross product, Vector3.crossVectors. -/
def cross (a b : Vec3) : Vec3 :=
  ⟨a.y * b.z - a.z * b.y, a.z * b.x - a.x * b.z, a.x * b.y - a.y * b.x⟩

/-- The zero vector. -/
def zero : Vec3 := ⟨0, 0, 0⟩

end Vec3

/-- RGB color, the embedding of THREE.Color. -/
@[ext]
structure Color where
  r : ℝ
  g : ℝ
  b : ℝ

/-- The held/released state of the fixed key set tracked in main.js. -/
structure Keys where
  keyW : Bool
  keyA : Bool
  keyS : Bool
  keyD : Bool
  arrowUp : Bool
  arrowDown : Bool
  arrowLeft : Bool
  arrowRight : Bool
  pageUp : Bool
  pageDown : Bool

/-- All keys released, the initial key map of main.js. -/
def keysNone : Keys := ⟨false, false, false, false, false, false, false, false, false, false⟩

/-- Only KeyW (camera forward) held. -/
def keysW : Keys := { keysNone with keyW := true }

/-- KeyW and KeyD (camera forward and right) held. -/
def keysWD : Keys := { keysNone with keyW := true, keyD := true }

/-- KeyW and KeyS (opposing camera keys) held. -/
def keysWS : Keys := { keysNone with keyW := true, keyS := true }

/-- Only ArrowRight (increase the active light's X) held. -/
def keysArrowRight : Keys := { keysNone with arrowRight := true }

/-- Camera state seen by updateCameraMovement: camera.position and
controls.target. -/
@[ext]
structure CamState where
  position : Vec3
  target : Vec3

/-- camera.up, never reassigned in main.js, so the three.js default. -/
def cameraUp : Vec3 := ⟨0, 1, 0⟩

/-- The camera speed constant of updateCameraMovement. -/
def speed : ℝ := 5

/-- forward.y = 0 applied to the world direction read from the camera. -/
def flatten (w : Vec3) : Vec3 := ⟨w.x, 0, w.z⟩

/-- The flattened, renormalized forward vector of updateCameraMovement. -/
def camForward (w : Vec3) : Vec3 := (flatten w).normalize

/-- right.crossVectors(forward, camera.up).normalize(). -/
def camRight (w : Vec3) : Vec3 := ((camForward w).cross cameraUp).normalize

/-- The accumulated moveDir of updateCameraMovement: conditional
add/sub of forward and right for the four movement keys, in source
order W, S, A, D. -/
def camMoveDir (w : Vec3) (keys : Keys) : Vec3 :=
  let m0 : Vec3 := ⟨0, 0, 0⟩
  let m1 := if keys.keyW then m0.add (camForward w) else m0
  let m2 := if keys.keyS then m1.sub (camForward w) else m1
  let m3 := if keys.keyA then m2.sub (camRight w) else m2
  let m4 := if keys.keyD then m3.add (camRight w) else m3
  m4

/-- updateCameraMovement(delta) of main.js: if the accumulated moveDir
is nonzero it is normalized, scaled by speed * delta and added to both
camera.position and controls.target; otherwise nothing changes.
The camera's world direction is the parameter w. -/
def updateCameraMovement (delta : ℝ) (w : Vec3) (keys : Keys) (st : CamState) : CamState :=
  let moveDir := camMoveDir w keys
  if 0 < moveDir.lengthSq then
    let mv := moveDir.normalize.multiplyScalar (speed * delta)
    ⟨st.position.add mv, st.target.add mv⟩
  else st

/-- A point light of the rig: position, intensity, distance, color. -/
@[ext]
structure Light where
  position : Vec3
  intensity : ℝ
  distance : ℝ
  color : Color

/-- A marker sphere mesh: position plus material color. -/
@[ext]
structure SphereMesh where
  position : Vec3
  color : Color

/-- A PointLightHelper; update() copies the light's color into its
material (its transform already tracks the light's matrix). -/
@[ext]
structure Helper where
  color : Color

/-- The mutable arrays lights, lightSpheres, lightHelpers of main.js. -/
@[ext]
structure RigState where
  lights : List Light
  lightSpheres : List SphereMesh
  lightHelpers : List Helper

/-- JS array indexing lights[activeLight]: undefined (none) for a
negative or past-the-end index. -/
def getLight (ls : List Light) (i : ℤ) : Option Light :=
  if i < 0 then none else ls[i.toNat]?

/-- One step of the sync loop body for a sphere:
lightSpheres[i].position.copy(lights[i].position). -/
def syncSphere (l : Light) (s : SphereMesh) : SphereMesh := { s with position := l.position }

/-- One step of the sync loop body for a helper: lightHelpers[i].update(). -/
def syncHelper (l : Light) (h : Helper) : Helper := { h with color := l.color }

/-- The sync loop at the end of updateLightMovement: for every index,
copy the light position into the sphere and update the helper. -/
def syncProxies (st : RigState) : RigState :=
  { st with
    lightSpheres := List.zipWith syncSphere st.lights st.lightSpheres
    lightHelpers := List.zipWith syncHelper st.lights st.lightHelpers }

/-- The six conditional axis updates applied to the active light's
position, in source order: ArrowUp z -= s, ArrowDown z += s,
ArrowLeft x -= s, ArrowRight x += s, PageUp y += s, PageDown y -= s. -/
def moveLightPos (keys : Keys) (s : ℝ) (p : Vec3) : Vec3 :=
  let p1 := if keys.arrowUp then { p with z := p.z - s } else p
  let p2 := if keys.arrowDown then { p1 with z := p1.z + s } else p1
  let p3 := if keys.arrowLeft then { p2 with x := p2.x - s } else p2
  let p4 := if keys.arrowRight then { p3 with x := p3.x + s } else p3
  let p5 := if keys.pageUp then { p4 with y := p4.y + s } else p4
  if keys.pageDown then { p5 with y := p5.y - s } else p5

/-- updateLightMovement(delta) of main.js: look up the active light
(early return when the lookup is undefined), move it along world axes
by lightSpeed = 4 * delta per held arrow/page key, then run the sync
loop over all lights. -/
def updateLightMovement (delta : ℝ) (activeLight : ℤ) (keys : Keys) (st : RigState) : RigState :=
  match getLight st.lights activeLight with
  | none => st
  | some l =>
    let lightSpeed := 4 * delta
    let lights2 := st.lights.set activeLight.toNat
      { l with position := moveLightPos keys lightSpeed l.position }
    syncProxies { st with lights := lights2 }

/-- The five initial light positions of main.js. -/
def initialPositions : List Vec3 :=
  [⟨0, 3, 0⟩, ⟨3, 2, 0⟩, ⟨-3, 2, 0⟩, ⟨0, 2, 3⟩, ⟨0, 2, -3⟩]

/-- The white color 0xffffff. -/
def white : Color := ⟨1, 1, 1⟩

/-- new THREE.PointLight(0xffffff, 2.5, 40) placed at p. -/
def mkLight (p : Vec3) : Light :=
  { position := p, intensity := 2.5, distance := 40, color := white }

/-- The marker sphere created next to a light: white material, position
copied from the light. -/
def mkSphere (p : Vec3) : SphereMesh := { position := p, color := white }

/-- The helper created next to a light; its material color mirrors the
(white) light color. -/
def mkHelper : Helper := { color := white }

/-- The rig state after the setup loop of main.js: five lights at the
initial positions with spheres and helpers already mirroring them. -/
def initState : RigState :=
  { lights := initialPositions.map mkLight
    lightSpheres := initialPositions.map mkSphere
    lightHelpers := initialPositions.map (fun _ => mkHelper) }

/-- A rig state in which light 0 was moved by the parameter panel
without a sync having run: its sphere still shows the old position. -/
def desyncState : RigState :=
  { initState with
    lights := (initialPositions.map mkLight).set 0 (mkLight ⟨9, 9, 9⟩) }

/-- A sequence of frames in which only updateLightMovement runs, with a
fixed active light and key state and the given per-frame deltas. -/
def runLightFrames (i : ℤ) (keys : Keys) (ds : List ℝ) (st : RigState) : RigState :=
  ds.foldl (fun s d => updateLightMovement d i keys s) st

/-- A sequence of frames in which only updateCameraMovement runs, with a
fixed world direction and key state and the given per-frame deltas. -/
def runCameraFrames (w : Vec3) (keys : Keys) (ds : List ℝ) (st : CamState) : CamState :=
  ds.foldl (fun s d => updateCameraMovement d w keys s) st

/-- An arbitrary concrete camera state at the origin. -/
def camState0 : CamState := ⟨⟨0, 0, 0⟩, ⟨0, 0, 0⟩⟩

/-- Closed form for the lights after the increase-x key has been held on
light 2 for t accumulated seconds starting from the initial rig. -/
def lightsAfter (t : ℝ) : List Light :=
  [mkLight ⟨0, 3, 0⟩, mkLight ⟨3, 2, 0⟩, mkLight ⟨4 * t - 3, 2, 0⟩,
   mkLight ⟨0, 2, 3⟩, mkLight ⟨0, 2, -3⟩]

/-- Closed form for the whole rig state in the same scenario: spheres
and helpers mirror the lights. -/
def stateAfter (t : ℝ) : RigState :=
  { lights := lightsAfter t
    lightSpheres := (lightsAfter t).map (fun l => mkSphere l.position)
    lightHelpers := (lightsAfter t).map (fun _ => mkHelper) }

namespace Vec3

lemma lengthSq_nonneg (a : Vec3) : 0 ≤ a.lengthSq := by
  unfold lengthSq
  nlinarith [sq_nonneg a.x, sq_nonneg a.y, sq_nonneg a.z]

lemma length_nonneg (a : Vec3) : 0 ≤ a.length := Real.sqrt_nonneg _

lemma lengthSq_eq_zero_iff (a : Vec3) : a.lengthSq = 0 ↔ a = ⟨0, 0, 0⟩ := by
  constructor
  · intro h
    unfold lengthSq at h
    have hx : a.x * a.x = 0 := by nlinarith [sq_nonneg a.x, sq_nonneg a.y, sq_nonneg a.z]
    have hy : a.y * a.y = 0 := by nlinarith [sq_nonneg a.x, sq_nonneg a.y, sq_nonneg a.z]
    have hz : a.z * a.z = 0 := by nlinarith [sq_nonneg a.x, sq_nonneg a.y, sq_nonneg a.z]
    ext <;> simp [mul_self_eq_zero.mp hx, mul_self_eq_zero.mp hy, mul_self_eq_zero.mp hz]
  · intro h
    rw [h]
    unfold lengthSq
    norm_num

lemma length_eq_zero_iff (a : Vec3) : a.length = 0 ↔ a.lengthSq = 0 :=
  Real.sqrt_eq_zero a.lengthSq_nonneg

lemma sq_length (a : Vec3) : a.length ^ 2 = a.lengthSq :=
  Real.sq_sqrt a.lengthSq_nonneg

lemma lengthSq_multiplyScalar (a : Vec3) (c : ℝ) :
    (a.multiplyScalar c).lengthSq = c ^ 2 * a.lengthSq := by
  unfold lengthSq multiplyScalar; ring

lemma length_multiplyScalar (a : Vec3) (c : ℝ) :
    (a.multiplyScalar c).length = |c| * a.length := by
  unfold length
  rw [lengthSq_multiplyScalar, Real.sqrt_mul (sq_nonneg c), Real.sqrt_sq_eq_abs]

lemma normalize_zero : normalize ⟨0, 0, 0⟩ = ⟨0, 0, 0⟩ := by
  unfold normalize multiplyScalar
  ext <;> simp

lemma length_normalize (a : Vec3) :
    a.normalize.length = if a.length = 0 then 0 else 1 := by
  unfold normalize
  rw [length_multiplyScalar]
  by_cases h : a.length = 0
  · simp [h]
  · have hpos : 0 < a.length := lt_of_le_of_ne a.length_nonneg (Ne.symm h)
    rw [if_neg h, if_neg h, abs_of_pos (by positivity)]
    field_simp

lemma add_sub_cancel_self (a m : Vec3) : (a.add m).sub a = m := by
  unfold add sub
  ext <;> (dsimp; ring)

lemma sub_self_eq_zero (a : Vec3) : a.sub a = ⟨0, 0, 0⟩ := by
  unfold sub
  ext <;> (dsimp; ring)

lemma zero_add_self (a : Vec3) : (Vec3.mk 0 0 0).add a = a := by
  unfold add
  ext <;> (dsimp; ring)

lemma length_zero_vec : (Vec3.mk 0 0 0).length = 0 := by
  unfold length lengthSq
  norm_num

end Vec3

lemma cross_cameraUp (f : Vec3) : f.cross cameraUp = ⟨-f.z, 0, f.x⟩ := by
  unfold Vec3.cross cameraUp
  ext <;> (dsimp; ring)

lemma camForward_y (w : Vec3) : (camForward w).y = 0 := by
  unfold camForward flatten Vec3.normalize Vec3.multiplyScalar
  simp

lemma camForward_degenerate (w : Vec3) (hx : w.x = 0) (hz : w.z = 0) :
    camForward w = ⟨0, 0, 0⟩ := by
  unfold camForward
  have h : flatten w = ⟨0, 0, 0⟩ := by
    unfold flatten
    ext <;> simp [hx, hz]
  rw [h, Vec3.normalize_zero]

lemma camRight_degenerate (w : Vec3) (hx : w.x = 0) (hz : w.z = 0) :
    camRight w = ⟨0, 0, 0⟩ := by
  unfold camRight
  rw [camForward_degenerate w hx hz, cross_cameraUp]
  simp only [neg_zero]
  exact Vec3.normalize_zero

lemma camForward_unit (w : Vec3) (h : (flatten w).lengthSq ≠ 0) :
    (camForward w).lengthSq = 1 := by
  have hlen : (flatten w).length ≠ 0 := fun h0 =>
    h (((flatten w).length_eq_zero_iff).mp h0)
  unfold camForward Vec3.normalize
  rw [if_neg hlen, Vec3.lengthSq_multiplyScalar]
  have hsq : (flatten w).length ^ 2 = (flatten w).lengthSq := (flatten w).sq_length
  field_simp
  nlinarith [hsq]

lemma camRight_unit (w : Vec3) (h : (camForward w).lengthSq = 1) :
    camRight w = ⟨-(camForward w).z, 0, (camForward w).x⟩ ∧ (camRight w).lengthSq = 1 := by
  have hy : (camForward w).y = 0 := camForward_y w
  have hcross : (camForward w).cross cameraUp = ⟨-(camForward w).z, 0, (camForward w).x⟩ :=
    cross_cameraUp _
  have hsq : (Vec3.mk (-(camForward w).z) 0 (camForward w).x).lengthSq = 1 := by
    unfold Vec3.lengthSq at h ⊢
    dsimp at h ⊢
    nlinarith [h, hy]
  have hne : (Vec3.mk (-(camForward w).z) 0 (camForward w).x).length ≠ 0 := by
    intro h0
    rw [Vec3.length_eq_zero_iff] at h0
    rw [hsq] at h0
    norm_num at h0
  have hone : (Vec3.mk (-(camForward w).z) 0 (camForward w).x).length = 1 := by
    have := (Vec3.mk (-(camForward w).z) 0 (camForward w).x).sq_length
    rw [hsq] at this
    nlinarith [Vec3.length_nonneg (Vec3.mk (-(camForward w).z) 0 (camForward w).x)]
  have hres : camRight w = ⟨-(camForward w).z, 0, (camForward w).x⟩ := by
    unfold camRight
    rw [hcross]
    unfold Vec3.normalize
    rw [hone]
    norm_num
    unfold Vec3.multiplyScalar
    ext <;> (dsimp; ring)
  exact ⟨hres, by rw [hres]; exact hsq⟩

lemma lengthSq_zero_vec : (Vec3.mk 0 0 0).lengthSq = 0 := by
  unfold Vec3.lengthSq
  norm_num

lemma camMoveDir_keysW (w : Vec3) : camMoveDir w keysW = camForward w := by
  simp only [camMoveDir, keysW, keysNone]
  simp
  exact Vec3.zero_add_self _

lemma camMoveDir_keysWD (w : Vec3) :
    camMoveDir w keysWD = (camForward w).add (camRight w) := by
  simp only [camMoveDir, keysWD, keysNone]
  simp
  rw [Vec3.zero_add_self]

lemma camMoveDir_keysWS (w : Vec3) : camMoveDir w keysWS = ⟨0, 0, 0⟩ := by
  simp only [camMoveDir, keysWS, keysNone]
  simp
  unfold Vec3.add Vec3.sub
  ext <;> (dsimp; ring)

lemma camMoveDir_degenerate (w : Vec3) (hx : w.x = 0) (hz : w.z = 0) (keys : Keys) :
    camMoveDir w keys = ⟨0, 0, 0⟩ := by
  simp only [camMoveDir, camForward_degenerate w hx hz, camRight_degenerate w hx hz]
  split_ifs <;> (ext <;> simp [Vec3.add, Vec3.sub])

lemma updateCamera_of_not_move (δ : ℝ) (w : Vec3) (keys : Keys) (st : CamState)
    (h : ¬ 0 < (camMoveDir w keys).lengthSq) :
    updateCameraMovement δ w keys st = st := by
  simp [updateCameraMovement, h]

lemma updateCamera_pos_sub (δ : ℝ) (w : Vec3) (keys : Keys) (st : CamState) :
    (updateCameraMovement δ w keys st).position.sub st.position =
      if 0 < (camMoveDir w keys).lengthSq then
        (camMoveDir w keys).normalize.multiplyScalar (speed * δ)
      else ⟨0, 0, 0⟩ := by
  by_cases h : 0 < (camMoveDir w keys).lengthSq
  · simp [updateCameraMovement, h, Vec3.add_sub_cancel_self]
  · simp [updateCameraMovement, h, Vec3.sub_self_eq_zero]

lemma length_move (m : Vec3) (δ : ℝ) (hδ : 0 ≤ δ) (h : 0 < m.lengthSq) :
    (m.normalize.multiplyScalar (speed * δ)).length = speed * δ := by
  rw [Vec3.length_multiplyScalar, Vec3.length_normalize]
  have hne : m.length ≠ 0 := by
    intro h0
    rw [Vec3.length_eq_zero_iff] at h0
    exact h.ne' h0
  rw [if_neg hne, mul_one, abs_of_nonneg (mul_nonneg (by norm_num [speed]) hδ)]

lemma camForward_negZ : camForward ⟨0, 0, -1⟩ = ⟨0, 0, -1⟩ := by
  have hflat : flatten ⟨0, 0, -1⟩ = ⟨0, 0, -1⟩ := rfl
  have hL : (Vec3.mk 0 0 (-1)).length = 1 := by
    unfold Vec3.length Vec3.lengthSq
    norm_num
  unfold camForward
  rw [hflat]
  unfold Vec3.normalize
  rw [hL]
  norm_num
  unfold Vec3.multiplyScalar
  ext <;> (dsimp; ring)

lemma step_W_negZ (δ : ℝ) (st : CamState) :
    updateCameraMovement δ ⟨0, 0, -1⟩ keysW st =
      ⟨st.position.add ⟨0, 0, -(speed * δ)⟩, st.target.add ⟨0, 0, -(speed * δ)⟩⟩ := by
  have hm : camMoveDir ⟨0, 0, -1⟩ keysW = ⟨0, 0, -1⟩ := by
    rw [camMoveDir_keysW, camForward_negZ]
  have hpos : 0 < (Vec3.mk 0 0 (-1)).lengthSq := by
    unfold Vec3.lengthSq
    norm_num
  have hL : (Vec3.mk 0 0 (-1)).length = 1 := by
    unfold Vec3.length Vec3.lengthSq
    norm_num
  have hmv : (Vec3.mk 0 0 (-1)).normalize.multiplyScalar (speed * δ) = ⟨0, 0, -(speed * δ)⟩ := by
    unfold Vec3.normalize
    rw [hL]
    norm_num
    unfold Vec3.multiplyScalar
    ext <;> (dsimp; ring)
  simp only [updateCameraMovement, hm]
  rw [if_pos hpos, hmv]

lemma runCameraFrames_negZ (ds : List ℝ) : ∀ st : CamState,
    runCameraFrames ⟨0, 0, -1⟩ keysW ds st =
      ⟨st.position.add ⟨0, 0, -(speed * ds.sum)⟩, st.target.add ⟨0, 0, -(speed * ds.sum)⟩⟩ := by
  induction ds with
  | nil =>
    intro st
    simp only [runCameraFrames, List.foldl_nil, List.sum_nil]
    ext <;> (simp [Vec3.add])
  | cons d ds ih =>
    intro st
    have hstep : runCameraFrames ⟨0, 0, -1⟩ keysW (d :: ds) st =
        runCameraFrames ⟨0, 0, -1⟩ keysW ds (updateCameraMovement d ⟨0, 0, -1⟩ keysW st) := rfl
    rw [hstep, ih, step_W_negZ]
    simp only [List.sum_cons]
    ext <;> (simp [Vec3.add]; try ring)

/-- C2: for every deltaSeconds at least 0 and every key combination, the
camera displacement of one updateCameraMovement call has length at most
speed * delta; holding W and D together gives a displacement of the same
length as holding W alone, and the opposing pair W plus S cancels to the
zero vector so the state is unchanged. -/
theorem camera_displacement_bounded (δ : ℝ) (hδ : 0 ≤ δ) (w : Vec3) (st : CamState) :
    (∀ keys : Keys,
      ((updateCameraMovement δ w keys st).position.sub st.position).length ≤ speed * δ)
    ∧ ((updateCameraMovement δ w keysWD st).position.sub st.position).length
        = ((updateCameraMovement δ w keysW st).position.sub st.position).length
    ∧ updateCameraMovement δ w keysWS st = st := by
  have hspeedδ : 0 ≤ speed * δ := mul_nonneg (by norm_num [speed]) hδ
  refine ⟨?_, ?_, ?_⟩
  · intro keys
    rw [updateCamera_pos_sub]
    by_cases h : 0 < (camMoveDir w keys).lengthSq
    · rw [if_pos h, length_move _ _ hδ h]
    · rw [if_neg h]
      unfold Vec3.length
      rw [lengthSq_zero_vec, Real.sqrt_zero]
      exact hspeedδ
  · rw [updateCamera_pos_sub, updateCamera_pos_sub, camMoveDir_keysWD, camMoveDir_keysW]
    by_cases hf : (flatten w).lengthSq = 0
    · have hF : camForward w = ⟨0, 0, 0⟩ := by
        unfold camForward
        rw [(Vec3.lengthSq_eq_zero_iff _).mp hf, Vec3.normalize_zero]
      have hR : camRight w = ⟨0, 0, 0⟩ := by
        unfold camRight
        rw [hF, cross_cameraUp]
        simp only [neg_zero]
        exact Vec3.normalize_zero
      rw [hF, hR, Vec3.zero_add_self]
    · have h1 : (camForward w).lengthSq = 1 := camForward_unit w hf
      obtain ⟨hRr, hR1⟩ := camRight_unit w h1
      have hWpos : 0 < (camForward w).lengthSq := by rw [h1]; norm_num
      have hy : (camForward w).y = 0 := camForward_y w
      have hWD : ((camForward w).add (camRight w)).lengthSq = 2 := by
        rw [hRr]
        unfold Vec3.lengthSq at h1 ⊢
        unfold Vec3.add
        dsimp
        nlinarith [h1, hy]
      have hWDpos : 0 < ((camForward w).add (camRight w)).lengthSq := by
        rw [hWD]; norm_num
      rw [if_pos hWDpos, if_pos hWpos, length_move _ _ hδ hWDpos, length_move _ _ hδ hWpos]
  · apply updateCamera_of_not_move
    rw [camMoveDir_keysWS, lengthSq_zero_vec]
    exact lt_irrefl 0

/-- C2 witness: the bound, the diagonal equality and the cancellation at
the concrete input delta 1, world direction along positive x, camera at
the origin. -/
theorem camera_displacement_bounded_witness :
    (0 : ℝ) ≤ 1 ∧
    ((∀ keys : Keys,
      ((updateCameraMovement 1 ⟨1, 0, 0⟩ keys camState0).position.sub camState0.position).length
        ≤ speed * 1)
    ∧ ((updateCameraMovement 1 ⟨1, 0, 0⟩ keysWD camState0).position.sub camState0.position).length
        = ((updateCameraMovement 1 ⟨1, 0, 0⟩ keysW camState0).position.sub camState0.position).length
    ∧ updateCameraMovement 1 ⟨1, 0, 0⟩ keysWS camState0 = camState0) :=
  ⟨by norm_num, camera_displacement_bounded 1 (by norm_num) ⟨1, 0, 0⟩ camState0⟩

/-- C8: camera movement adds the same vector to position and target, so
the viewing offset target minus position never changes; and facing world
minus z with only the forward key held over frames whose deltas sum to
2 seconds shifts position and target by exactly (0, 0, -10). -/
theorem camera_pan_preserves_direction (ds : List ℝ) (h : ds.sum = 2) :
    (∀ (δ : ℝ) (w : Vec3) (keys : Keys) (st : CamState),
      (updateCameraMovement δ w keys st).target.sub (updateCameraMovement δ w keys st).position
        = st.target.sub st.position)
    ∧ ∀ st : CamState,
      runCameraFrames ⟨0, 0, -1⟩ keysW ds st =
        ⟨st.position.add ⟨0, 0, -10⟩, st.target.add ⟨0, 0, -10⟩⟩ := by
  constructor
  · intro δ w keys st
    by_cases hm : 0 < (camMoveDir w keys).lengthSq
    · simp only [updateCameraMovement, if_pos hm]
      unfold Vec3.add Vec3.sub
      ext <;> (dsimp; ring)
    · simp only [updateCameraMovement, if_neg hm]
  · intro st
    rw [runCameraFrames_negZ, h]
    have : -(speed * 2) = (-10 : ℝ) := by norm_num [speed]
    rw [this]

/-- C8 witness: a single frame of delta 2 sums to 2 and produces the
(0, 0, -10) shift. -/
theorem camera_pan_preserves_direction_witness :
    List.sum [(2 : ℝ)] = 2 ∧
    ((∀ (δ : ℝ) (w : Vec3) (keys : Keys) (st : CamState),
      (updateCameraMovement δ w keys st).target.sub (updateCameraMovement δ w keys st).position
        = st.target.sub st.position)
    ∧ ∀ st : CamState,
      runCameraFrames ⟨0, 0, -1⟩ keysW [(2 : ℝ)] st =
        ⟨st.position.add ⟨0, 0, -10⟩, st.target.add ⟨0, 0, -10⟩⟩) :=
  ⟨by simp, camera_pan_preserves_direction [(2 : ℝ)] (by simp)⟩

/-- C3 counterexample: passing the negative delta -1 with the forward
key held does change the camera position (the code applies the delta
verbatim, with no clamp to zero), refuting the claim that a negative
elapsed time produces zero displacement. -/
theorem negative_delta_counterexample :
    updateCameraMovement (-1) ⟨0, 0, -1⟩ keysW camState0 ≠ camState0 := by
  rw [step_W_negZ]
  intro h
  have hz := congrArg (fun s => s.position.z) h
  simp [camState0, Vec3.add, speed] at hz

/-- C3 amended: neither navigator guards the elapsed-time value; the
delta is applied verbatim, so for every real delta, including negative
ones, the forward key moves the camera by speed times delta along the
facing direction and the increase-x key moves the active light's x by
4 times delta. -/
theorem negative_delta_applied_verbatim (δ : ℝ) (st : CamState) :
    updateCameraMovement δ ⟨0, 0, -1⟩ keysW st
      = ⟨st.position.add ⟨0, 0, -(speed * δ)⟩, st.target.add ⟨0, 0, -(speed * δ)⟩⟩
    ∧ (updateLightMovement δ 2 keysArrowRight initState).lights[2]?.map
        (fun l => l.position.x) = some (-3 + 4 * δ) := by
  refine ⟨step_W_negZ δ st, ?_⟩
  simp [updateLightMovement, getLight, initState, initialPositions, mkLight,
    moveLightPos, keysArrowRight, keysNone, syncProxies]

/-- C4 counterexample: looking straight up, holding the forward key for
a full second moves neither position nor target: there is no fallback
movement direction (which would have produced a step of length
speed * 1, a nonzero amount), refuting the claimed fallback to the
previous forward direction or a fixed world axis. -/
theorem degenerate_forward_counterexample :
    updateCameraMovement 1 ⟨0, 1, 0⟩ keysW camState0 = camState0 ∧ speed * (1 : ℝ) ≠ 0 := by
  constructor
  · apply updateCamera_of_not_move
    rw [camMoveDir_degenerate ⟨0, 1, 0⟩ rfl rfl keysW, lengthSq_zero_vec]
    exact lt_irrefl 0
  · norm_num [speed]

/-- C4 amended: when the forward direction has zero horizontal
projection there is no fallback direction; normalization maps the zero
vector to itself, so every key combination produces no camera movement
that frame, and the call returns normally with the state unchanged. -/
theorem degenerate_forward_no_movement (w : Vec3) (hx : w.x = 0) (hz : w.z = 0)
    (δ : ℝ) (keys : Keys) (st : CamState) :
    updateCameraMovement δ w keys st = st := by
  apply updateCamera_of_not_move
  rw [camMoveDir_degenerate w hx hz keys, lengthSq_zero_vec]
  exact lt_irrefl 0

/-- C4 witness: looking straight up with forward and right held and
delta 1, the update returns the state unchanged. -/
theorem degenerate_forward_no_movement_witness :
    (Vec3.mk 0 1 0).x = 0 ∧ (Vec3.mk 0 1 0).z = 0 ∧
    updateCameraMovement 1 ⟨0, 1, 0⟩ keysWD camState0 = camState0 :=
  ⟨rfl, rfl, degenerate_forward_no_movement ⟨0, 1, 0⟩ rfl rfl 1 keysWD camState0⟩

/-- C10: with a vertical forward direction, flattening then normalizing
yields the zero vector, the derived right vector is also zero, and
updateCameraMovement leaves position and target exactly unchanged for
every key state and every nonnegative delta; over the reals no NaN can
arise because normalize divides by length-or-1, never by zero. -/
theorem degenerate_forward_safe (w : Vec3) (hx : w.x = 0) (hz : w.z = 0)
    (δ : ℝ) (hδ : 0 ≤ δ) (keys : Keys) (st : CamState) :
    camForward w = ⟨0, 0, 0⟩ ∧ camRight w = ⟨0, 0, 0⟩ ∧
    updateCameraMovement δ w keys st = st := by
  refine ⟨camForward_degenerate w hx hz, camRight_degenerate w hx hz, ?_⟩
  apply updateCamera_of_not_move
  rw [camMoveDir_degenerate w hx hz keys, lengthSq_zero_vec]
  exact lt_irrefl 0

/-- C10 witness: looking straight down with all four movement keys'
worth of input reduced to the W and S pair held, delta 1, the state is
unchanged and both direction vectors are zero. -/
theorem degenerate_forward_safe_witness :
    (Vec3.mk 0 (-1) 0).x = 0 ∧ (Vec3.mk 0 (-1) 0).z = 0 ∧ (0 : ℝ) ≤ 1 ∧
    (camForward ⟨0, -1, 0⟩ = ⟨0, 0, 0⟩ ∧ camRight ⟨0, -1, 0⟩ = ⟨0, 0, 0⟩ ∧
      updateCameraMovement 1 ⟨0, -1, 0⟩ keysWS camState0 = camState0) :=
  ⟨rfl, rfl, by norm_num,
    degenerate_forward_safe ⟨0, -1, 0⟩ rfl rfl 1 (by norm_num) keysWS camState0⟩

lemma zipWith_self_idem {α β : Type} (f : α → β → β) (hf : ∀ a b, f a (f a b) = f a b) :
    ∀ (l : List α) (s : List β), List.zipWith f l (List.zipWith f l s) = List.zipWith f l s := by
  intro l
  induction l with
  | nil => intro s; simp
  | cons a l ih =>
    intro s
    cases s with
    | nil => simp
    | cons b s => simp [hf, ih]

lemma syncProxies_idem (st : RigState) : syncProxies (syncProxies st) = syncProxies st := by
  unfold syncProxies
  dsimp
  rw [zipWith_self_idem syncSphere (fun a b => rfl) st.lights,
    zipWith_self_idem syncHelper (fun a b => rfl) st.lights]

lemma sync_getElem (ls : List Light) : ∀ ss : List SphereMesh, ss.length = ls.length →
    ∀ i : ℕ, (List.zipWith syncSphere ls ss)[i]?.map SphereMesh.position
      = ls[i]?.map Light.position := by
  induction ls with
  | nil =>
    intro ss h i
    simp
  | cons l ls ih =>
    intro ss h i
    cases ss with
    | nil => simp at h
    | cons s ss =>
      cases i with
      | zero => simp [syncSphere]
      | succ i =>
        simp only [List.zipWith_cons_cons, List.getElem?_cons_succ]
        exact ih ss (by simpa using h) i

/-- C1: whenever the sync loop at the end of updateLightMovement runs
(the active-light lookup succeeded), every marker sphere position equals
its light's position afterwards, exactly, and running the sync loop a
second time with no intervening mutation changes nothing. -/
theorem sync_invariant (δ : ℝ) (idx : ℤ) (keys : Keys) (st : RigState) (l : Light)
    (hl : getLight st.lights idx = some l)
    (hlen : st.lightSpheres.length = st.lights.length) :
    (∀ i : ℕ,
      (updateLightMovement δ idx keys st).lightSpheres[i]?.map SphereMesh.position
        = (updateLightMovement δ idx keys st).lights[i]?.map Light.position)
    ∧ syncProxies (updateLightMovement δ idx keys st) = updateLightMovement δ idx keys st := by
  have hrun : updateLightMovement δ idx keys st =
      syncProxies { st with lights := (st.lights.set idx.toNat
        { l with position := moveLightPos keys (4 * δ) l.position }) } := by
    unfold updateLightMovement
    rw [hl]
  constructor
  · intro i
    rw [hrun]
    unfold syncProxies
    dsimp
    apply sync_getElem
    rw [List.length_set]
    exact hlen
  · rw [hrun]
    exact syncProxies_idem _

/-- C1 witness: one frame on the initial rig with light 0 active. -/
theorem sync_invariant_witness :
    (getLight initState.lights 0 = some (mkLight ⟨0, 3, 0⟩)
      ∧ initState.lightSpheres.length = initState.lights.length)
    ∧ ((∀ i : ℕ,
      (updateLightMovement 1 0 keysArrowRight initState).lightSpheres[i]?.map SphereMesh.position
        = (updateLightMovement 1 0 keysArrowRight initState).lights[i]?.map Light.position)
    ∧ syncProxies (updateLightMovement 1 0 keysArrowRight initState)
        = updateLightMovement 1 0 keysArrowRight initState) :=
  ⟨⟨by simp [getLight, initState, initialPositions], by simp [initState, initialPositions]⟩,
    sync_invariant 1 0 keysArrowRight initState (mkLight ⟨0, 3, 0⟩)
      (by simp [getLight, initState, initialPositions])
      (by simp [initState, initialPositions])⟩

/-- C5: an out-of-range active-light index makes updateLightMovement a
complete no-op: the whole rig state, in particular every light's
position, intensity, distance and color, is returned unchanged, and no
fault occurs. -/
theorem out_of_range_no_mutation (δ : ℝ) (idx : ℤ) (keys : Keys) (st : RigState)
    (h : idx < 0 ∨ (st.lights.length : ℤ) ≤ idx) :
    updateLightMovement δ idx keys st = st := by
  have hnone : getLight st.lights idx = none := by
    unfold getLight
    rcases h with h | h
    · rw [if_pos h]
    · have h0 : ¬ idx < 0 := by omega
      rw [if_neg h0]
      apply List.getElem?_eq_none
      omega
  unfold updateLightMovement
  rw [hnone]

/-- C5 witness: index -1 on the five-light rig with a movement key held
changes nothing. -/
theorem out_of_range_no_mutation_witness :
    ((-1 : ℤ) < 0 ∨ ((initState.lights.length : ℤ) ≤ -1))
    ∧ updateLightMovement 1 (-1) keysArrowRight initState = initState :=
  ⟨Or.inl (by norm_num),
    out_of_range_no_mutation 1 (-1) keysArrowRight initState (Or.inl (by norm_num))⟩

/-- C9: when the active-light lookup yields undefined the function
returns before the sync loop, so in that frame no marker sphere
position is copied and no helper is updated, whatever the lights hold. -/
theorem failed_lookup_skips_sync (δ : ℝ) (idx : ℤ) (keys : Keys) (st : RigState)
    (h : getLight st.lights idx = none) :
    (updateLightMovement δ idx keys st).lightSpheres = st.lightSpheres
    ∧ (updateLightMovement δ idx keys st).lightHelpers = st.lightHelpers := by
  unfold updateLightMovement
  rw [h]
  exact ⟨rfl, rfl⟩

/-- C9 witness: index 5 on a rig whose light 0 was moved by the panel
while its sphere still shows the old position; the desync persists
because the sync loop is skipped. -/
theorem failed_lookup_skips_sync_witness :
    getLight desyncState.lights 5 = none ∧
    ((updateLightMovement 1 5 keysArrowRight desyncState).lightSpheres
        = desyncState.lightSpheres
    ∧ (updateLightMovement 1 5 keysArrowRight desyncState).lightHelpers
        = desyncState.lightHelpers) :=
  ⟨by simp [getLight, desyncState, initState, initialPositions],
    failed_lookup_skips_sync 1 5 keysArrowRight desyncState
      (by simp [getLight, desyncState, initState, initialPositions])⟩

/-- C6: with an in-range active index, updateLightMovement can change
only the position of the selected light: every light keeps its
intensity, distance and color, and every non-selected light is entirely
unchanged. -/
theorem light_navigator_position_only (δ : ℝ) (idx : ℤ) (keys : Keys) (st : RigState)
    (h0 : 0 ≤ idx) (hlt : idx.toNat < st.lights.length) :
    (∀ j : ℕ,
      (updateLightMovement δ idx keys st).lights[j]?.map Light.intensity
        = st.lights[j]?.map Light.intensity
      ∧ (updateLightMovement δ idx keys st).lights[j]?.map Light.distance
        = st.lights[j]?.map Light.distance
      ∧ (updateLightMovement δ idx keys st).lights[j]?.map Light.color
        = st.lights[j]?.map Light.color)
    ∧ ∀ j : ℕ, j ≠ idx.toNat →
      (updateLightMovement δ idx keys st).lights[j]? = st.lights[j]? := by
  have hl : getLight st.lights idx = some (st.lights.get ⟨idx.toNat, hlt⟩) := by
    unfold getLight
    rw [if_neg (not_lt.mpr h0)]
    rw [List.getElem?_eq_getElem hlt]
    rfl
  have hrun : updateLightMovement δ idx keys st =
      syncProxies { st with lights := (st.lights.set idx.toNat
        { st.lights.get ⟨idx.toNat, hlt⟩ with
          position := moveLightPos keys (4 * δ) (st.lights.get ⟨idx.toNat, hlt⟩).position }) } := by
    unfold updateLightMovement
    rw [hl]
  constructor
  · intro j
    rw [hrun]
    unfold syncProxies
    dsimp
    by_cases hj : j = idx.toNat
    · subst hj
      rw [List.getElem?_set_self hlt, List.getElem?_eq_getElem hlt]
      exact ⟨rfl, rfl, rfl⟩
    · rw [List.getElem?_set_ne (Ne.symm hj)]
      exact ⟨rfl, rfl, rfl⟩
  · intro j hj
    rw [hrun]
    unfold syncProxies
    dsimp
    rw [List.getElem?_set_ne (Ne.symm hj)]

/-- C6 witness: light 2 active on the initial rig with the increase-x
key held for one second. -/
theorem light_navigator_position_only_witness :
    ((0 : ℤ) ≤ 2 ∧ (2 : ℤ).toNat < initState.lights.length)
    ∧ ((∀ j : ℕ,
      (updateLightMovement 1 2 keysArrowRight initState).lights[j]?.map Light.intensity
        = initState.lights[j]?.map Light.intensity
      ∧ (updateLightMovement 1 2 keysArrowRight initState).lights[j]?.map Light.distance
        = initState.lights[j]?.map Light.distance
      ∧ (updateLightMovement 1 2 keysArrowRight initState).lights[j]?.map Light.color
        = initState.lights[j]?.map Light.color)
    ∧ ∀ j : ℕ, j ≠ (2 : ℤ).toNat →
      (updateLightMovement 1 2 keysArrowRight initState).lights[j]? = initState.lights[j]?) :=
  ⟨⟨by norm_num, by simp [initState, initialPositions]⟩,
    light_navigator_position_only 1 2 keysArrowRight initState (by norm_num)
      (by simp [initState, initialPositions])⟩

lemma initState_eq_stateAfter_zero : initState = stateAfter 0 := by
  unfold initState stateAfter lightsAfter initialPositions
  norm_num [mkLight, mkSphere, mkHelper]

lemma step_arrowRight (δ t : ℝ) :
    updateLightMovement δ 2 keysArrowRight (stateAfter t) = stateAfter (t + δ) := by
  unfold updateLightMovement getLight stateAfter lightsAfter
  simp [moveLightPos, keysArrowRight, keysNone, syncProxies, syncSphere, syncHelper,
    mkLight, mkSphere, mkHelper]
  ring

lemma runLight_arrowRight (ds : List ℝ) : ∀ t : ℝ,
    runLightFrames 2 keysArrowRight ds (stateAfter t) = stateAfter (t + ds.sum) := by
  induction ds with
  | nil =>
    intro t
    simp only [runLightFrames, List.foldl_nil, List.sum_nil, add_zero]
  | cons d ds ih =>
    intro t
    have hstep : runLightFrames 2 keysArrowRight (d :: ds) (stateAfter t) =
        runLightFrames 2 keysArrowRight ds (updateLightMovement d 2 keysArrowRight (stateAfter t)) :=
      rfl
    rw [hstep, step_arrowRight, ih, List.sum_cons, add_assoc]

/-- C7: the six light-movement keys act additively on single world axes
with no normalization (closed form for moveLightPos); and holding the
increase-x key on active light 2 over frames whose deltas sum to one
second raises light 2's x from -3 to 1 (by lightSpeed 4 times 1), leaves
lights 0, 1, 3, 4 unchanged, and ends with every marker sphere equal to
its light's position. -/
theorem light_additive_axes (ds : List ℝ) (h : ds.sum = 1) :
    (∀ (keys : Keys) (s : ℝ) (p : Vec3),
      moveLightPos keys s p =
        ⟨p.x + (if keys.arrowRight then s else 0) - (if keys.arrowLeft then s else 0),
         p.y + (if keys.pageUp then s else 0) - (if keys.pageDown then s else 0),
         p.z + (if keys.arrowDown then s else 0) - (if keys.arrowUp then s else 0)⟩)
    ∧ (runLightFrames 2 keysArrowRight ds initState).lights[2]?.map Light.position
        = some ⟨1, 2, 0⟩
    ∧ (∀ j : ℕ, j ≠ 2 →
        (runLightFrames 2 keysArrowRight ds initState).lights[j]? = initState.lights[j]?)
    ∧ ∀ i : ℕ,
        (runLightFrames 2 keysArrowRight ds initState).lightSpheres[i]?.map SphereMesh.position
          = (runLightFrames 2 keysArrowRight ds initState).lights[i]?.map Light.position := by
  have hrun : runLightFrames 2 keysArrowRight ds initState = stateAfter 1 := by
    rw [initState_eq_stateAfter_zero, runLight_arrowRight, zero_add, h]
  refine ⟨?_, ?_, ?_, ?_⟩
  · intro keys s p
    unfold moveLightPos
    split_ifs <;> (ext <;> (dsimp; try ring))
  · rw [hrun]
    simp [stateAfter, lightsAfter, mkLight]
    norm_num
  · intro j hj
    rw [hrun, initState_eq_stateAfter_zero]
    rcases j with _ | _ | _ | _ | _ | j
    · simp [stateAfter, lightsAfter]
    · simp [stateAfter, lightsAfter]
    · exact absurd rfl hj
    · simp [stateAfter, lightsAfter]
    · simp [stateAfter, lightsAfter]
    · simp [stateAfter, lightsAfter]
  · intro i
    rw [hrun]
    rcases i with _ | _ | _ | _ | _ | i
    · simp [stateAfter, lightsAfter, mkSphere, mkLight]
    · simp [stateAfter, lightsAfter, mkSphere, mkLight]
    · simp [stateAfter, lightsAfter, mkSphere, mkLight]
    · simp [stateAfter, lightsAfter, mkSphere, mkLight]
    · simp [stateAfter, lightsAfter, mkSphere, mkLight]
    · simp [stateAfter, lightsAfter, mkSphere, mkLight]

/-- C7 witness: a single frame of delta 1 sums to one second. -/
theorem light_additive_axes_witness :
    List.sum [(1 : ℝ)] = 1 ∧
    ((∀ (keys : Keys) (s : ℝ) (p : Vec3),
      moveLightPos keys s p =
        ⟨p.x + (if keys.arrowRight then s else 0) - (if keys.arrowLeft then s else 0),
         p.y + (if keys.pageUp then s else 0) - (if keys.pageDown then s else 0),
         p.z + (if keys.arrowDown then s else 0) - (if keys.arrowUp then s else 0)⟩)
    ∧ (runLightFrames 2 keysArrowRight [(1 : ℝ)] initState).lights[2]?.map Light.position
        = some ⟨1, 2, 0⟩
    ∧ (∀ j : ℕ, j ≠ 2 →
        (runLightFrames 2 keysArrowRight [(1 : ℝ)] initState).lights[j]? = initState.lights[j]?)
    ∧ ∀ i : ℕ,
        (runLightFrames 2 keysArrowRight [(1 : ℝ)] initState).lightSpheres[i]?.map
            SphereMesh.position
          = (runLightFrames 2 keysArrowRight [(1 : ℝ)] initState).lights[i]?.map Light.position) :=
  ⟨by simp, light_additive_axes [(1 : ℝ)] (by simp)⟩

end VRProj

end
